import Mathlib

/-!
Verification of the Availability & Booking Reconciliation Engine of the
rsrvflow repository (a WhatsApp appointment-booking assistant).

The embedding translates the JavaScript source into Lean:
* timestamps are minutes since an epoch, as `Int`; a JavaScript `Date` value
  that may be invalid (`Invalid Date`) is an `Option Int`, `none` standing for
  an invalid date; every comparison against an invalid date is `false`,
  matching JavaScript semantics;
* JavaScript strings are `List Char`; `String.split` on a one-character
  separator, `Number(...)` on digit strings, and the `Date` ISO parser are
  modelled character by character below;
* the Supabase tables are explicit lists; the Google Calendar and Twilio
  collaborators are oracles carried in an environment record;
* day granularity: `setHours(0,0,0,0)` / `setHours(23,59,59,999)` become the
  half-open minute range `[dayStart t, dayStart t + 1440)`, i.e. an upper
  bound of `dayStart t + 1439` on integer minute timestamps.
-/

namespace Rsrv

/-! ## JavaScript value primitives -/

/-- Comparison `a < b` between possibly-invalid `Date` values: any comparison
involving `Invalid Date` (modelled `none`) is `false` in JavaScript. -/
def jlt : Option Int → Option Int → Bool
  | some a, some b => decide (a < b)
  | _, _ => false

/-- Comparison `a > b` between possibly-invalid `Date` values. -/
def jgt : Option Int → Option Int → Bool
  | some a, some b => decide (b < a)
  | _, _ => false

/-- Start of the calendar day containing minute `t` (`setHours(0,0,0,0)`). -/
def dayStart (t : Int) : Int := 1440 * (t / 1440)

/-- Weekday index of minute `t`, modelling `format(t, 'EEE').toLowerCase()`
used as the key into the business-hours map. -/
def weekday (t : Int) : Int := (t / 1440) % 7

/-- JavaScript `str.split(sep)` for a one-character separator. -/
def splitOnChar (sep : Char) : List Char → List (List Char)
  | [] => [[]]
  | c :: rest =>
    match splitOnChar sep rest with
    | [] => [[c]]
    | h :: t => if c = sep then [] :: h :: t else (c :: h) :: t

/-- Numeric value of a digit character. -/
def digitVal (c : Char) : Int := (c.toNat : Int) - 48

/-- JavaScript `Number(s)` restricted to the component strings that occur in
stored hours ("HH", "MM", and malformed variants): a non-empty all-digit
string yields its value, anything else yields `NaN` (modelled `none`). -/
def jsNumber (s : List Char) : Option Int :=
  if s ≠ [] ∧ s.all Char.isDigit then
    some (s.foldl (fun a c => 10 * a + digitVal c) 0)
  else none

/-- Model of `const [h, m] = part.split(':').map(Number)` followed by
`setHours(h, m, 0, 0)`: the minute-of-day offset, or `none` when either
component is `NaN`/`undefined` (which makes the `Date` invalid). A missing
minute component destructures to `undefined`, hence an invalid date.
`setHours` with `h ≥ 24` rolls over into following days, so the offset is not
clamped. -/
def parseTimeOfDay (t : List Char) : Option Int :=
  match (splitOnChar ':' t).map jsNumber with
  | some h :: some m :: _ => some (h * 60 + m)
  | _ => none

/-! ## Policy resolution (business-hours lookup in `checkAvailability` and
`getAvailableSlots`) -/

/-- Outcome of reading the stored hours entry for a day. -/
inductive Window where
  /-- `!businessHours || businessHours === 'closed'` (absent, empty or the
  literal string). -/
  | closedDay
  /-- `businessHours.split('-')` produced no second component, so
  `closeTime.split(':')` throws a `TypeError`. -/
  | thrown
  /-- Open/close minute-of-day offsets; `none` components are invalid dates. -/
  | window (openT closeT : Option Int)
deriving DecidableEq, Repr

/-- Resolution of a stored hours string into the day's window, translated from
the prologue shared by `BookingAgent.checkAvailability` and
`GoogleCalendarService.getAvailableSlots`. -/
def lookupWindow (hoursStr : Option (List Char)) : Window :=
  match hoursStr with
  | none => .closedDay
  | some s =>
    if s = [] ∨ s = "closed".data then .closedDay
    else
      match splitOnChar '-' s with
      | [] => .thrown
      | [_] => .thrown
      | o :: c :: _ => .window (parseTimeOfDay o) (parseTimeOfDay c)

/-! ## Data model -/

/-- A row of the `bookings` table (fields the engine reads). -/
structure Booking where
  id : Nat
  start_time : Int
  end_time : Int
  status : List Char
  reminder_sent : Bool
  calendar_event_id : Option Nat
deriving DecidableEq, Repr

/-- The `status` literal written by `createBooking`. -/
def confirmedStr : List Char := "confirmed".data

/-- Result of `GoogleCalendarService.checkAvailability`'s freebusy query. -/
inductive CalendarFetch where
  /-- Successful query returning the busy windows in the requested span. -/
  | ok (busy : List (Int × Int))
  /-- Initialization failure or API error: the service catches it and returns
  `{available:false, error}`. -/
  | fetchFailed
deriving DecidableEq, Repr

/-- `available` field of `GoogleCalendarService.checkAvailability`'s result:
`busySlots.length === 0` on success, `false` with an `error` field on
failure. -/
def gcalAvailable : CalendarFetch → Bool
  | .ok busy => busy.isEmpty
  | .fetchFailed => false

/-- Environment of a `BookingAgent`: the business configuration plus the
external-calendar collaborator, as read during one request. -/
structure Env where
  /-- `business.config?.hours[dayOfWeek]`, keyed by weekday index. -/
  hours : Int → Option (List Char)
  /-- `business.config?.settings?.buffer_minutes` (absent = `undefined`). -/
  bufferSetting : Option Int
  /-- `business.google_calendar_credentials` is set. -/
  hasCalendar : Bool
  /-- Freebusy query result for a span, `calendar s e`. -/
  calendar : Int → Int → CalendarFetch
  /-- `getDayEvents`: events of the calendar day starting at the given
  `dayStart` (an empty list both when there are none and when the fetch
  fails, since `getDayEvents` catches its errors). -/
  dayEvents : Int → List (Int × Int)

/-- Effective buffer: `business.config?.settings?.buffer_minutes || 15`.
JavaScript `||` takes the default when the stored value is falsy, which
includes the number `0`. -/
def bufferMinutes (setting : Option Int) : Int :=
  match setting with
  | some b => if b = 0 then 15 else b
  | none => 15

/-- The direct conflict test of `BookingAgent.checkAvailability` (and the slot
filter of `getAvailableSlots`):
`(s >= es && s < ee) || (e > es && e <= ee) || (s <= es && e >= ee)`. -/
def overlapTest (s e es ee : Int) : Bool :=
  (decide (es ≤ s) && decide (s < ee)) ||
  (decide (es < e) && decide (e ≤ ee)) ||
  (decide (s ≤ es) && decide (ee ≤ e))

/-- The buffer-time test of `BookingAgent.checkAvailability` with
`bufferStart = s - buf` and `bufferEnd = e + buf`:
`(bufferStart < ee && bufferStart > es) || (bufferEnd > es && bufferEnd < ee)`. -/
def bufferTest (s e buf es ee : Int) : Bool :=
  (decide (s - buf < ee) && decide (es < s - buf)) ||
  (decide (es < e + buf) && decide (e + buf < ee))

/-- Half-open overlap test applied after inflating the existing interval by
the buffer on both ends. This follows the SPEC's words ("inflate each internal
booking's interval by buffer_minutes on both ends before the overlap test"),
for comparison against the source's `bufferTest`. -/
def inflOverlap (s e buf es ee : Int) : Bool :=
  decide (s < ee + buf) && decide (es - buf < e)

/-! ## Slot generation (`GoogleCalendarService.getAvailableSlots`) -/

/-- The `while (currentTime < closeDateTime)` loop stepping by 15 minutes.
The loop advances `cur` by 15 each iteration, so it performs at most
`(close - cur).toNat` iterations; the fuel argument is instantiated with that
bound and only makes the recursion structural. -/
def genSlotsAux (dur : Int) (events : List (Int × Int)) (close : Int) :
    Nat → Int → List (Int × Int)
  | 0, _ => []
  | fuel + 1, cur =>
    if cur < close then
      (if cur + dur ≤ close &&
          !(events.any fun ev => overlapTest cur (cur + dur) ev.1 ev.2) then
        [(cur, cur + dur)]
      else []) ++ genSlotsAux dur events close fuel (cur + 15)
    else []

/-- Slot enumeration over `[openDT, closeDT)`. -/
def genSlots (openDT closeDT dur : Int) (events : List (Int × Int)) :
    List (Int × Int) :=
  genSlotsAux dur events closeDT (closeDT - openDT).toNat openDT

/-- Result object of `getAvailableSlots`. -/
inductive SlotsOutcome where
  /-- The hours string had no '-' separator: `closeTime.split(':')` throws. -/
  | thrown
  /-- `{available:false, slots:[], reason:'Closed'}`. -/
  | closedDay
  /-- `{available: slots.length>0, slots}`. -/
  | ok (slots : List (Int × Int))
deriving DecidableEq, Repr

/-- The `slots` field of a `getAvailableSlots` result (empty on the other
outcomes, matching `slots.slice` on an absent field yielding nothing). -/
def slotsOf : SlotsOutcome → List (Int × Int)
  | .ok l => l
  | _ => []

/-- `GoogleCalendarService.getAvailableSlots` for the day starting at `day`,
with the day's calendar events `events` and service duration `dur`. When a
window component is an invalid date the `while` condition (a comparison with
an invalid date) is `false` at once and no slot is produced. -/
def getAvailableSlots (hoursStr : Option (List Char)) (day : Int)
    (events : List (Int × Int)) (dur : Int) : SlotsOutcome :=
  match lookupWindow hoursStr with
  | .closedDay => .closedDay
  | .thrown => .thrown
  | .window o c =>
    match o, c with
    | some ot, some ct => .ok (genSlots (day + ot) (day + ct) dur events)
    | _, _ => .ok []

/-! ## Conflict detection (`BookingAgent.checkAvailability`) -/

/-- Availability reasons (the distinct user-facing reason strings). Note the
calendar-busy and internal-conflict branches of the source share the single
string `'that time slot is already booked'`. -/
inductive Reason where
  | closedDay
  | outsideHours
  | alreadyBooked
  | bufferNeeded
deriving DecidableEq, Repr

/-- The result object of `BookingAgent.checkAvailability`: its only fields are
`available`, `reason` and (on the calendar branch) `suggestions`. -/
structure AvailResult where
  available : Bool
  reason : Option Reason
  suggestions : Option (List (Int × Int))
deriving DecidableEq, Repr

/-- `checkAvailability` either returns a result or lets a `TypeError` from the
hours parsing escape (caught only by `processBooking`'s outer handler). -/
inductive Avail where
  | thrown
  | res (r : AvailResult)
deriving DecidableEq, Repr

/-- The day-scoped fetch
`getBookingsByBusiness(businessId, startOfDay, endOfDay)`: status `confirmed`
and `start_time` between `setHours(0,0,0,0)` and `setHours(23,59,59,999)` of
the candidate's day. (Its `ORDER BY start_time` does not affect any result
below.) -/
def dayFilter (ledger : List Booking) (s : Int) : List Booking :=
  ledger.filter fun b =>
    b.status == confirmedStr &&
    decide (dayStart s ≤ b.start_time) && decide (b.start_time ≤ dayStart s + 1439)

/-- Alternative suggestions produced on the calendar-conflict branch:
`getAvailableSlots(...).slots?.slice(0, 3)` (empty when the result carries no
slots). -/
def suggestionsFor (env : Env) (s dur : Int) : List (Int × Int) :=
  match getAvailableSlots (env.hours (weekday s)) (dayStart s)
      (env.dayEvents (dayStart s)) dur with
  | .ok slots => slots.take 3
  | _ => []

/-- `BookingAgent.checkAvailability(startTime, endTime, serviceName, duration)`
for candidate `[s, e)`. Steps, in source order: business-hours gate, Google
Calendar gate (when credentials are bound), day-scoped internal conflict loop,
buffer loop. The source's `for ... return` loops return the same result object
whichever element triggers, so they are rendered with `List.any`. -/
def checkAvailability (env : Env) (ledger : List Booking) (s e dur : Int) :
    Avail :=
  match lookupWindow (env.hours (weekday s)) with
  | .closedDay => .res ⟨false, some .closedDay, none⟩
  | .thrown => .thrown
  | .window o c =>
    if jlt (some s) (o.map (dayStart s + ·)) ||
        jgt (some e) (c.map (dayStart s + ·)) then
      .res ⟨false, some .outsideHours, none⟩
    else if env.hasCalendar && !gcalAvailable (env.calendar s e) then
      .res ⟨false, some .alreadyBooked, some (suggestionsFor env s dur)⟩
    else if (dayFilter ledger s).any
        (fun b => overlapTest s e b.start_time b.end_time) then
      .res ⟨false, some .alreadyBooked, none⟩
    else if bufferMinutes env.bufferSetting > 0 &&
        (dayFilter ledger s).any (fun b =>
          bufferTest s e (bufferMinutes env.bufferSetting)
            b.start_time b.end_time) then
      .res ⟨false, some .bufferNeeded, none⟩
    else
      .res ⟨true, none, none⟩

/-! ## Booking orchestration (`BookingAgent.processBooking` tail,
`rescheduleBooking`) -/

/-- Outcome of `processBooking` (user-visible success/failure shape). -/
inductive BookOutcome where
  /-- A required field was missing (`validateBookingData`). -/
  | rejectedMissing
  /-- The raw `${date}T${time}` guard fired (`validateBookingData`). -/
  | rejectedPast
  /-- `parseDateTime` produced no date or no time. -/
  | rejectedParse
  /-- `getServiceDuration` found no matching active service. -/
  | rejectedService
  /-- `checkAvailability` said no. -/
  | unavailable
  /-- An exception reached `processBooking`'s outer catch. -/
  | errorCaught
  /-- `{success:true, booking}` (the returned row is the one `createBooking`
  inserted; `updateCalendarEventId`'s result is not folded back into it). -/
  | committed (b : Booking)
deriving DecidableEq, Repr

/-- The row `DatabaseService.createBooking` inserts: a fresh id, the requested
interval, `status: 'confirmed'`, no reminder sent, no calendar event yet. -/
def mkBooking (newId : Nat) (s e : Int) : Booking :=
  { id := newId, start_time := s, end_time := e, status := confirmedStr
    reminder_sent := false, calendar_event_id := none }

/-- The commit tail of `processBooking`, from the `checkAvailability` call on:
on success it inserts a `confirmed` row, then best-effort mirrors to Google
Calendar (`addToGoogleCalendar` catches its own errors, so `mirrorOk = false`
only skips the `updateCalendarEventId` call), then sends the confirmation
(`sendsOk = false` makes the Twilio send throw into the outer catch after the
row is already inserted). -/
def processBookingCommit (env : Env) (mirrorOk sendsOk : Bool)
    (ledger : List Booking) (newId eventId : Nat) (s e dur : Int) :
    BookOutcome × List Booking :=
  match checkAvailability env ledger s e dur with
  | .thrown => (.errorCaught, ledger)
  | .res r =>
    if r.available then
      let b := mkBooking newId s e
      let afterInsert := ledger ++ [b]
      let afterMirror :=
        if env.hasCalendar && mirrorOk then
          afterInsert.map fun x =>
            if x.id == newId then { x with calendar_event_id := some eventId }
            else x
        else afterInsert
      if sendsOk then (.committed b, afterMirror)
      else (.errorCaught, afterMirror)
    else (.unavailable, ledger)

/-- Outcome of `rescheduleBooking`. -/
inductive RescheduleOutcome where
  | notFound
  /-- `{success:false}`, from an unavailable new slot or a caught exception. -/
  | failed
  | rescheduled (b : Booking)
deriving DecidableEq, Repr

/-- `BookingAgent.rescheduleBooking(bookingId, newDateTime)`: looks the booking
up, re-runs `checkAvailability` on the new interval with the booking's own
duration, and only on success updates `start_time`/`end_time` in place. -/
def rescheduleBooking (env : Env) (ledger : List Booking) (bid : Nat)
    (newStart : Int) : RescheduleOutcome × List Booking :=
  match ledger.find? (fun b => b.id == bid) with
  | none => (.notFound, ledger)
  | some b =>
    let dur := b.end_time - b.start_time
    let newEnd := newStart + dur
    match checkAvailability env ledger newStart newEnd dur with
    | .thrown => (.failed, ledger)
    | .res r =>
      if r.available then
        let upd : Booking → Booking := fun x =>
          if x.id == bid then { x with start_time := newStart, end_time := newEnd }
          else x
        (.rescheduled (upd b), ledger.map upd)
      else (.failed, ledger)

/-! ## Reminder sweep (`SchedulerService.sendDailyReminders`) -/

/-- Eligibility in the sweep's query: `status='confirmed'`,
`reminder_sent=false`, `start_time` between tomorrow's midnight and the
following midnight (both bounds inclusive, `gte`/`lte`). -/
def eligibleReminder (lo hi : Int) (b : Booking) : Bool :=
  b.status == confirmedStr && !b.reminder_sent &&
  decide (lo ≤ b.start_time) && decide (b.start_time ≤ hi)

/-- `UPDATE bookings SET reminder_sent = true WHERE id = bid`. -/
def markSent (bs : List Booking) (bid : Nat) : List Booking :=
  bs.map fun b => if b.id == bid then { b with reminder_sent := true } else b

/-- One iteration of the sweep's `for` body: attempt the Twilio send (the
`send` oracle says whether it succeeds or throws); only after a successful
send does the flag update run, a throw being caught by the per-booking
`catch`. -/
def sweepStep (send : Nat → Bool) (st : List Booking) (b : Booking) :
    List Booking :=
  if send b.id then markSent st b.id else st

/-- `sendDailyReminders` run at time `now`: selects the eligible bookings of
tomorrow's day window, then processes them in order. Returns the updated table
and the number of send attempts performed (one `sendMessage` call per selected
booking). -/
def sendDailyReminders (send : Nat → Bool) (now : Int) (bs : List Booking) :
    List Booking × Nat :=
  let lo := dayStart now + 1440
  let hi := dayStart now + 2880
  let sel := bs.filter (eligibleReminder lo hi)
  (sel.foldl (sweepStep send) bs, sel.length)

/-! ## Request validation and date parsing (`validateBookingData`,
`parseDateTime`, the head of `processBooking`) -/

/-- Exactly `n` digit characters parsed as a number. -/
def fixedDigits (n : Nat) (s : List Char) : Option Int :=
  if s.length = n ∧ s.all Char.isDigit then
    some (s.foldl (fun a c => 10 * a + digitVal c) 0)
  else none

/-- The time half of the `Date` parser: `HH:MM`. -/
def jsTimeParts (t : List Char) : Option Int :=
  match splitOnChar ':' t with
  | [hh, mm] =>
    match fixedDigits 2 hh, fixedDigits 2 mm with
    | some hv, some nv => some (hv * 60 + nv)
    | _, _ => none
  | _ => none

/-- The date half of the `Date` parser: `YYYY-MM-DD`, combined with the time
half. The encoding is strictly monotone in the (year, month, day, hour,
minute) tuple, which is all the engine observes through comparisons. -/
def jsDateParts (d t : List Char) : Option Int :=
  match splitOnChar '-' d with
  | [y, m, dd] =>
    match fixedDigits 4 y, fixedDigits 2 m, fixedDigits 2 dd, jsTimeParts t with
    | some yv, some mv, some dv, some tv =>
      some ((((yv * 12 + mv) * 31 + dv) * 1440) + tv)
    | _, _, _, _ => none
  | _ => none

/-- Model of the JavaScript `Date` parser on `YYYY-MM-DDTHH:MM` strings
(the only shape `processBooking` constructs from a resolved date): any other
shape is an invalid date. -/
def jsDateParse (s : List Char) : Option Int :=
  match splitOnChar 'T' s with
  | [d, t] => jsDateParts d t
  | _ => none

/-- JavaScript `hay.includes(needle)` on strings. -/
def jsIncludes (needle hay : List Char) : Bool := decide (needle <:+: hay)

/-- JavaScript falsiness of an optional string field (`!data.service` is true
both when the field is absent and when it is the empty string). -/
def falsyStr : Option (List Char) → Bool
  | none => true
  | some s => s.isEmpty

/-- The structured booking request (`bookingData` fields the engine reads). -/
structure BookingData where
  service : Option (List Char)
  date : Option (List Char)
  time : Option (List Char)
deriving Repr

/-- Result of `validateBookingData`. -/
inductive ValidateResult where
  | missingFields
  | pastDate
  | valid
deriving DecidableEq, Repr

/-- `BookingAgent.validateBookingData`: missing-field check, then the
past-date guard comparing `new Date(raw)` with `now` where
`raw = ${data.date}T${data.time}` is built from the RAW request strings,
before any relative-date resolution. -/
def validateBookingData (now : Int) (d : BookingData) : ValidateResult :=
  if falsyStr d.service || falsyStr d.date || falsyStr d.time then
    .missingFields
  else
    let raw := jsDateParse (d.date.getD [] ++ 'T' :: d.time.getD [])
    if jlt raw (some now) then .pastDate else .valid

/-- `n.toString().padStart(2, '0')` for the small non-negative numbers
produced by the time regex (at most three digits after the pm shift). -/
def pad2 (n : Int) : List Char :=
  if n < 10 then ['0', Char.ofNat (48 + n.toNat)]
  else if n < 100 then
    [Char.ofNat (48 + (n.toNat / 10)), Char.ofNat (48 + n.toNat % 10)]
  else
    [Char.ofNat (48 + n.toNat / 100), Char.ofNat (48 + (n.toNat / 10) % 10),
     Char.ofNat (48 + n.toNat % 10)]

/-- First match of the date regex `/\d{4}-\d{2}-\d{2}/` at the head of the
string, if any. -/
def ymdAt (s : List Char) : Option (List Char) :=
  match s with
  | a :: b :: c :: d :: '-' :: e :: f :: '-' :: g :: h :: _ =>
    if [a, b, c, d, e, f, g, h].all Char.isDigit then
      some [a, b, c, d, '-', e, f, '-', g, h]
    else none
  | _ => none

/-- `dateStr.match(/\d{4}-\d{2}-\d{2}/)`: the leftmost match. -/
def findYMD : List Char → Option (List Char)
  | [] => none
  | c :: rest =>
    match ymdAt (c :: rest) with
    | some m => some m
    | none => findYMD rest

/-- Greedy 1-2 leading digits of the time regex (`\d{1,2}`); the head is
known to be a digit. -/
def take2Digits : List Char → Int × List Char
  | a :: b :: rest =>
    if b.isDigit then (10 * digitVal a + digitVal b, rest)
    else (digitVal a, b :: rest)
  | [a] => (digitVal a, [])
  | [] => (0, [])

/-- The optional minutes group `(?::(\d{2}))?`. -/
def optMinutes : List Char → Option Int × List Char
  | ':' :: a :: b :: rest =>
    if a.isDigit && b.isDigit then (some (10 * digitVal a + digitVal b), rest)
    else (none, ':' :: a :: b :: rest)
  | l => (none, l)

/-- `\s*`. -/
def skipSpaces : List Char → List Char
  | ' ' :: rest => skipSpaces rest
  | l => l

/-- The optional case-insensitive period group `(am|pm)?`; `some true` is pm. -/
def optPeriod (l : List Char) : Option Bool :=
  match l with
  | a :: b :: _ =>
    if a.toLower = 'a' ∧ b.toLower = 'm' then some false
    else if a.toLower = 'p' ∧ b.toLower = 'm' then some true
    else none
  | _ => none

/-- The time regex `(\d{1,2})(?::(\d{2}))?\s*(am|pm)?` matched at one
position (the position must start with a digit). -/
def timeAt (l : List Char) : Option (Int × Option Int × Option Bool) :=
  match l with
  | c :: _ =>
    if c.isDigit then
      let (h, r1) := take2Digits l
      let (m, r2) := optMinutes r1
      some (h, m, optPeriod (skipSpaces r2))
    else none
  | [] => none

/-- `timeStr.match(...)`: the leftmost match of the time regex. -/
def findTimeMatch : List Char → Option (Int × Option Int × Option Bool)
  | [] => none
  | c :: rest =>
    match timeAt (c :: rest) with
    | some m => some m
    | none => findTimeMatch rest

/-- `BookingAgent.parseDateTime(dateStr, timeStr)`. `todayStr`/`tomorrowStr`
model the clock-derived strings `new Date().toISOString().split('T')[0]` and
its day-after counterpart. Returns the resolved `{date, time}` pair. -/
def parseDateTime (todayStr tomorrowStr : List Char)
    (dateStr timeStr : List Char) :
    Option (List Char) × Option (List Char) :=
  let date :=
    if jsIncludes "today".data dateStr then some todayStr
    else if jsIncludes "tomorrow".data dateStr then some tomorrowStr
    else findYMD dateStr
  let time :=
    match findTimeMatch timeStr with
    | some (h0, m, period) =>
      let h1 := if period = some true ∧ h0 < 12 then h0 + 12 else h0
      let h2 := if period = some false ∧ h1 = 12 then 0 else h1
      some (pad2 h2 ++ ':' :: pad2 (m.getD 0))
    | none => none
  (date, time)

/-- `getServiceDuration`: first active service whose lowercased name includes,
or is included in, the lowercased request string; `duration_minutes || null`
turns a stored `0` into "not found". -/
def getServiceDuration (services : List (List Char × Int)) (name : List Char) :
    Option Int :=
  let lower := fun (l : List Char) => l.map Char.toLower
  match services.find? (fun sv =>
      jsIncludes (lower name) (lower sv.1) || jsIncludes (lower sv.1) (lower name)) with
  | some sv => if sv.2 = 0 then none else some sv.2
  | none => none

/-- The head of `processBooking`, through validation, parsing, service lookup
and `startTime = new Date(...)` construction, followed by the commit tail.
A `none` start time (invalid resolved date) makes `format(startTime, 'EEE')`
throw a `RangeError` into the outer catch. -/
def processBooking (env : Env) (mirrorOk sendsOk : Bool) (now : Int)
    (todayStr tomorrowStr : List Char) (services : List (List Char × Int))
    (ledger : List Booking) (newId eventId : Nat) (d : BookingData) :
    BookOutcome × List Booking :=
  match validateBookingData now d with
  | .missingFields => (.rejectedMissing, ledger)
  | .pastDate => (.rejectedPast, ledger)
  | .valid =>
    let (pd, pt) := parseDateTime todayStr tomorrowStr (d.date.getD []) (d.time.getD [])
    if falsyStr pd || falsyStr pt then (.rejectedParse, ledger)
    else
      match getServiceDuration services (d.service.getD []) with
      | none => (.rejectedService, ledger)
      | some dur =>
        match jsDateParse (pd.getD [] ++ 'T' :: pt.getD []) with
        | some s =>
          processBookingCommit env mirrorOk sendsOk ledger newId eventId s (s + dur) dur
        | none => (.errorCaught, ledger)

/-! ## Stated invariants -/

/-- The no-overlap invariant: no two confirmed bookings of the business have
overlapping half-open `[start, end)` intervals. -/
def ConfirmedDisjoint (l : List Booking) : Prop :=
  l.Pairwise fun a b => a.status = confirmedStr → b.status = confirmedStr →
    a.end_time ≤ b.start_time ∨ b.end_time ≤ a.start_time

instance (l : List Booking) : Decidable (ConfirmedDisjoint l) := by
  unfold ConfirmedDisjoint; infer_instance

/-- A booking whose interval lies inside the calendar day of its start (every
booking the engine itself creates under numeric hours with `close ≤ 24:00` is
of this shape, since the hours gate anchors `close` to the start's day). -/
def IntraDay (b : Booking) : Prop :=
  b.end_time ≤ dayStart b.start_time + 1440

instance (b : Booking) : Decidable (IntraDay b) := by
  unfold IntraDay; infer_instance

/-! ## Concrete scenarios used to settle the claims -/

/-- A business open 09:00-17:00 every day, no buffer setting (default 15),
no external calendar. -/
def envStd : Env :=
  { hours := fun _ => some "09:00-17:00".data
    bufferSetting := none
    hasCalendar := false
    calendar := fun _ _ => .ok []
    dayEvents := fun _ => [] }

/-- Same business with an explicit `buffer_minutes = 15`. -/
def envB15 : Env := { envStd with bufferSetting := some 15 }

/-- Same business with a stored `buffer_minutes = 0`. -/
def envZeroBuf : Env := { envStd with bufferSetting := some 0 }

/-- A business whose stored hours have non-numeric components. -/
def envBadHours : Env :=
  { envStd with hours := fun _ => some "aa:bb-cc:dd".data }

/-- A business open 00:00-08:00 (early-morning slots). -/
def envNight : Env :=
  { envStd with hours := fun _ => some "00:00-08:00".data }

/-- A clock instant: 2026-10-11 15:00 in the date encoding of `jsDateParse`. -/
def nowOct : Int := (((2026 * 12 + 10) * 31 + 11) * 1440) + 15 * 60

/-- 2026-10-11 10:00 — five hours before `nowOct`. -/
def tenOct : Int := (((2026 * 12 + 10) * 31 + 11) * 1440) + 10 * 60

/-- A booking request for an already-elapsed time today, using the relative
date word. -/
def reqToday : BookingData :=
  ⟨some "Haircut".data, some "today".data, some "10:00".data⟩

/-- The same request with the explicit date string the relative word resolves
to. -/
def reqExplicit : BookingData :=
  ⟨some "Haircut".data, some "2026-10-11".data, some "10:00".data⟩

/-- The standard business with a bound calendar whose fetch fails. -/
def envCalFail : Env :=
  { envStd with hasCalendar := true, calendar := fun _ _ => .fetchFailed }

/-- The standard business with a bound calendar reporting 10:00-10:30 busy. -/
def envCalBusy : Env :=
  { envStd with hasCalendar := true, calendar := fun _ _ => .ok [(600, 630)] }

/-! ## Helper lemmas -/

theorem dayStart_le (t : Int) : dayStart t ≤ t := by
  unfold dayStart; omega

theorem lt_dayStart_add (t : Int) : t < dayStart t + 1440 := by
  unfold dayStart; omega

theorem overlapTest_of_overlap {s e es ee : Int} (h1 : s < ee) (h2 : es < e) :
    overlapTest s e es ee = true := by
  simp only [overlapTest, Bool.or_eq_true, Bool.and_eq_true, decide_eq_true_eq]
  omega

theorem env_update_buffer_hours (env : Env) (b : Option Int) :
    ({ env with bufferSetting := b } : Env).hours = env.hours := rfl

theorem mem_dayFilter {l : List Booking} {s : Int} {x : Booking} :
    x ∈ dayFilter l s ↔
      x ∈ l ∧ x.status = confirmedStr ∧
      dayStart s ≤ x.start_time ∧ x.start_time ≤ dayStart s + 1439 := by
  simp [dayFilter, List.mem_filter, and_assoc]

/-- Extraction of the facts established when `checkAvailability` answers
`available`. -/
theorem avail_true_elim {env : Env} {ledger : List Booking} {s e dur : Int}
    {r : AvailResult} (h : checkAvailability env ledger s e dur = .res r)
    (ha : r.available = true) :
    ∃ o c, lookupWindow (env.hours (weekday s)) = .window o c ∧
      (jlt (some s) (o.map (dayStart s + ·)) ||
        jgt (some e) (c.map (dayStart s + ·))) = false ∧
      (env.hasCalendar && !gcalAvailable (env.calendar s e)) = false ∧
      (dayFilter ledger s).any
        (fun b => overlapTest s e b.start_time b.end_time) = false := by
  unfold checkAvailability at h
  split at h
  · cases h; simp at ha
  · cases h
  · rename_i o c hw
    refine ⟨o, c, hw, ?_⟩
    split at h
    · cases h; simp at ha
    · rename_i h1
      refine ⟨by simpa using h1, ?_⟩
      split at h
      · cases h; simp at ha
      · rename_i h2
        refine ⟨by simpa using h2, ?_⟩
        split at h
        · cases h; simp at ha
        · rename_i h3
          simpa using h3

/-- Reconstruction: with the gates as given and an internal conflict, the
result is the internal already-booked rejection. -/
theorem check_already_booked_of_gates {env : Env} {ledger : List Booking}
    {s e dur : Int} {o c : Option Int}
    (hw : lookupWindow (env.hours (weekday s)) = .window o c)
    (hh : (jlt (some s) (o.map (dayStart s + ·)) ||
      jgt (some e) (c.map (dayStart s + ·))) = false)
    (hc : (env.hasCalendar && !gcalAvailable (env.calendar s e)) = false)
    (hx : (ledger.filter fun b =>
      b.status == confirmedStr &&
      decide (dayStart s ≤ b.start_time) &&
      decide (b.start_time ≤ dayStart s + 1439)).any
        (fun b => overlapTest s e b.start_time b.end_time) = true) :
    checkAvailability env ledger s e dur =
      .res ⟨false, some .alreadyBooked, none⟩ := by
  unfold checkAvailability
  rw [hw]
  have hx' : (dayFilter ledger s).any
      (fun b => overlapTest s e b.start_time b.end_time) = true := hx
  simp [hh, hc, hx']

/-! ## Claims -/

/-- C2 (amended): the buffer step of `checkAvailability` rejects exactly when
`candidate.start - buffer` or `candidate.end + buffer` falls strictly inside an
existing internal booking's open interval; every such rejection overlaps the
buffer-inflated interval, the cited examples behave as the spec states
(existing 10:00-10:30, buffer 15: candidate 10:30-11:00 is rejected for buffer
time and 10:45-11:15 is available), and the external-calendar rejection is
insensitive to the buffer setting (busy windows are never buffer-inflated) —
but the buffer step is NOT equivalent to inflating and overlap-testing (see
the counterexample). -/
theorem c2_buffer_semantics :
    (∀ s e buf es ee : Int, 0 ≤ buf → s ≤ e →
      bufferTest s e buf es ee = true → inflOverlap s e buf es ee = true) ∧
    checkAvailability envB15 [mkBooking 1 600 630] 630 660 30 =
      .res ⟨false, some .bufferNeeded, none⟩ ∧
    checkAvailability envB15 [mkBooking 1 600 630] 645 675 30 =
      .res ⟨true, none, none⟩ ∧
    (∀ (env : Env) (bset : Option Int) (ledger : List Booking) (s e dur : Int),
      env.hasCalendar = true → gcalAvailable (env.calendar s e) = false →
      checkAvailability env ledger s e dur =
        checkAvailability { env with bufferSetting := bset } ledger s e dur) := by
  refine ⟨?_, by decide, by decide, ?_⟩
  · intro s e buf es ee hb hse h
    simp only [bufferTest, Bool.or_eq_true, Bool.and_eq_true,
      decide_eq_true_eq] at h
    simp only [inflOverlap, Bool.and_eq_true, decide_eq_true_eq]
    omega
  · intro env bset ledger s e dur hcal hg
    have h2 : (env.hasCalendar && !gcalAvailable (env.calendar s e)) = true := by
      simp [hcal, hg]
    unfold checkAvailability
    dsimp only
    rcases hw : lookupWindow (env.hours (weekday s)) with _ | _ | ⟨o, c⟩
    · rfl
    · rfl
    · dsimp only
      by_cases h1 : (jlt (some s) (o.map (dayStart s + ·)) ||
          jgt (some e) (c.map (dayStart s + ·))) = true
      · rw [if_pos h1, if_pos h1]
      · rw [if_neg h1, if_neg h1, if_pos h2, if_pos h2]
        rfl

/-- C2 counterexample: with an existing booking 10:00-10:05 and the default
buffer of 15 minutes, the candidate 09:50-09:58 overlaps the buffer-inflated
interval (09:45-10:20), yet the code accepts it: the buffer step only looks at
whether the shifted endpoints fall strictly inside the existing interval, so
it is not equivalent to inflate-then-overlap-test. -/
theorem c2_cex_not_inflation_equivalent :
    inflOverlap 590 598 15 600 605 = true ∧
    checkAvailability envStd [mkBooking 1 600 605] 590 598 8 =
      .res ⟨true, none, none⟩ := by
  exact ⟨by decide, by decide⟩

/-- C2 witness: conjunct instances at concrete inputs. -/
theorem c2_witness :
    inflOverlap 630 660 15 600 630 = true ∧
    checkAvailability envCalBusy [] 600 630 30 =
      checkAvailability { envCalBusy with bufferSetting := some 7 } [] 600 630 30 := by
  constructor
  · exact c2_buffer_semantics.1 630 660 15 600 630 (by decide) (by decide)
      (by decide)
  · exact c2_buffer_semantics.2.2.2 envCalBusy (some 7) [] 600 630 30 (by decide)
      (by decide)

/-- C3 (amended): when the external-calendar fetch fails, `checkAvailability`
does not mark the slot available — it fails closed. But it does so by
returning the ordinary already-booked conflict result (with alternative
suggestions), WITHOUT evaluating internal bookings (the result is the same for
every internal ledger) and without any degraded/CalendarUnavailable marker:
the result object has no field that could carry one. -/
theorem c3_degraded_fails_closed (env : Env) (ledger ledger' : List Booking)
    (s e dur : Int) (o c : Option Int)
    (hcal : env.hasCalendar = true) (hfail : env.calendar s e = .fetchFailed)
    (hw : lookupWindow (env.hours (weekday s)) = .window o c)
    (hh : (jlt (some s) (o.map (dayStart s + ·)) ||
      jgt (some e) (c.map (dayStart s + ·))) = false) :
    checkAvailability env ledger s e dur =
      .res ⟨false, some .alreadyBooked, some (suggestionsFor env s dur)⟩ ∧
    checkAvailability env ledger s e dur =
      checkAvailability env ledger' s e dur := by
  have key : ∀ lg : List Booking, checkAvailability env lg s e dur =
      .res ⟨false, some .alreadyBooked, some (suggestionsFor env s dur)⟩ := by
    intro lg
    unfold checkAvailability
    rw [hw]
    simp [hh, hcal, hfail, gcalAvailable]
  exact ⟨key ledger, (key ledger).trans (key ledger').symm⟩

/-- C3 witness: concrete instance of the degraded-mode behavior. -/
theorem c3_witness :
    checkAvailability envCalFail [] 600 630 30 =
      .res ⟨false, some .alreadyBooked, some (suggestionsFor envCalFail 600 30)⟩ ∧
    checkAvailability envCalFail [] 600 630 30 =
      checkAvailability envCalFail [mkBooking 1 300 330] 600 630 30 :=
  c3_degraded_fails_closed envCalFail [] [mkBooking 1 300 330] 600 630 30
    (some 540) (some 1020) (by decide) (by decide) (by decide) (by decide)

/-- C3 counterexample: with the calendar fetch failing and NO internal
bookings at all, the candidate is rejected with exactly the same result object
an ordinary calendar conflict produces — available=false, the generic
already-booked reason, no degraded flag — so the claim that the result is
"flagged as degraded (CalendarUnavailable) rather than ... an ordinary
conflict" is false, and internal bookings were not evaluated. -/
theorem c3_cex_indistinguishable_conflict :
    checkAvailability envCalFail [] 600 630 30 =
      checkAvailability envCalBusy [] 600 630 30 ∧
    checkAvailability envCalFail [] 600 630 30 =
      .res ⟨false, some .alreadyBooked, some [(540, 570), (555, 585), (570, 600)]⟩ := by
  exact ⟨by decide, by decide⟩

/-- C5 (amended): there is no `ConfigError` in the engine. A stored hours
string without a '-' separator makes `checkAvailability` throw a `TypeError`
(surfaced by `processBooking`'s catch-all as a generic error); a window with
`close ≤ open` makes every candidate `outside_hours`; and non-numeric `HH:MM`
components silently pass the hours gate — the invalid open/close dates compare
false against everything — so the engine proceeds with the nonsensical window
(see the counterexample). -/
theorem c5_malformed_hours_behavior :
    (∀ (env : Env) (ledger : List Booking) (s e dur : Int) (hs : List Char),
      env.hours (weekday s) = some hs → lookupWindow (some hs) = .thrown →
      checkAvailability env ledger s e dur = .thrown) ∧
    (∀ (env : Env) (ledger : List Booking) (s e dur ot ct : Int),
      lookupWindow (env.hours (weekday s)) = .window (some ot) (some ct) →
      ct ≤ ot → s < e →
      checkAvailability env ledger s e dur =
        .res ⟨false, some .outsideHours, none⟩) ∧
    lookupWindow (some "09:0017:00".data) = .thrown := by
  refine ⟨?_, ?_, by decide⟩
  · intro env ledger s e dur hs henv hthrown
    unfold checkAvailability
    rw [henv, hthrown]
  · intro env ledger s e dur ot ct hw hco hse
    have hcond : (jlt (some s) ((some ot).map (dayStart s + ·)) ||
        jgt (some e) ((some ct).map (dayStart s + ·))) = true := by
      simp only [Option.map_some', jlt, jgt, Bool.or_eq_true, decide_eq_true_eq]
      omega
    unfold checkAvailability
    rw [hw]
    dsimp only
    rw [if_pos hcond]

/-- C5 witness: instances of the thrown and close-before-open behaviors. -/
theorem c5_witness :
    checkAvailability { envStd with hours := fun _ => some "09:0017:00".data }
      [] 600 630 30 = .thrown ∧
    checkAvailability { envStd with hours := fun _ => some "17:00-09:00".data }
      [] 600 630 30 = .res ⟨false, some .outsideHours, none⟩ := by
  constructor
  · exact c5_malformed_hours_behavior.1
      { envStd with hours := fun _ => some "09:0017:00".data } [] 600 630 30
      "09:0017:00".data (by decide) (by decide)
  · exact c5_malformed_hours_behavior.2.1
      { envStd with hours := fun _ => some "17:00-09:00".data } [] 600 630 30
      1020 540 (by decide) (by decide) (by decide)

/-- C5 counterexample: hours stored as "aa:bb-cc:dd" (non-numeric components)
do not fail with any ConfigError-like outcome: the hours gate passes and the
engine answers `available=true` for a candidate on an empty ledger —
the engine silently proceeds with the nonsensical window instead of failing
closed. -/
theorem c5_cex_nonnumeric_proceeds :
    lookupWindow (some "aa:bb-cc:dd".data) = .window none none ∧
    checkAvailability envBadHours [] 600 630 30 = .res ⟨true, none, none⟩ := by
  exact ⟨by decide, by decide⟩

/-- C8 (amended): the effective buffer equals `settings.buffer_minutes` when
the field is present and non-zero, and equals the default 15 when the field is
absent — but ALSO when the stored value is `0`, because the JavaScript
`|| 15` default treats `0` as falsy; with a stored `0` the engine still
enforces a 15-minute buffer. -/
theorem c8_buffer_default :
    bufferMinutes none = 15 ∧
    (∀ b : Int, b ≠ 0 → bufferMinutes (some b) = b) ∧
    bufferMinutes (some 0) = 15 ∧
    checkAvailability envZeroBuf [mkBooking 1 600 630] 635 665 30 =
      .res ⟨false, some .bufferNeeded, none⟩ := by
  refine ⟨rfl, ?_, rfl, by decide⟩
  intro b hb
  simp [bufferMinutes, hb]

/-- C8 witness: the non-zero branch at a concrete stored value. -/
theorem c8_witness : bufferMinutes (some 30) = 30 :=
  c8_buffer_default.2.1 30 (by decide)

/-- C8 counterexample: with `buffer_minutes` stored as `0` the effective
buffer is 15, not 0 — and observably so: a candidate 10:35-11:05 next to an
existing 10:00-10:30 booking is rejected for buffer time although the business
configured a zero buffer. -/
theorem c8_cex_zero_buffer :
    bufferMinutes (some 0) ≠ 0 ∧ bufferMinutes (some 0) = 15 ∧
    checkAvailability envZeroBuf [mkBooking 1 600 630] 635 665 30 ≠
      .res ⟨true, none, none⟩ := by
  exact ⟨by decide, by decide, by decide⟩

/-- Every slot the generator loop emits starts no earlier than the current
position, fits before the close, has the requested duration, and passes the
conflict test against every calendar event. -/
theorem genSlotsAux_mem {dur : Int} {events : List (Int × Int)} {close : Int} :
    ∀ (fuel : Nat) (cur : Int) (p : Int × Int),
      p ∈ genSlotsAux dur events close fuel cur →
      cur ≤ p.1 ∧ p.1 + dur ≤ close ∧ p.2 = p.1 + dur ∧
      ∀ ev ∈ events, overlapTest p.1 p.2 ev.1 ev.2 = false := by
  intro fuel
  induction fuel with
  | zero => intro cur p hp; simp [genSlotsAux] at hp
  | succ n ih =>
    intro cur p hp
    rw [genSlotsAux] at hp
    by_cases h1 : cur < close
    · rw [if_pos h1] at hp
      rcases List.mem_append.1 hp with h | h
      · by_cases h2 : (decide (cur + dur ≤ close) &&
            !(events.any fun ev => overlapTest cur (cur + dur) ev.1 ev.2)) = true
        · rw [if_pos h2] at h
          rcases List.mem_singleton.1 h with rfl
          simp only [Bool.and_eq_true, decide_eq_true_eq, Bool.not_eq_true',
            List.any_eq_false] at h2
          exact ⟨le_refl _, h2.1, rfl, fun ev hev =>
            by simpa using h2.2 ev hev⟩
        · rw [if_neg h2] at h
          simp at h
      · have := ih (cur + 15) p h
        exact ⟨by omega, this.2.1, this.2.2.1, this.2.2.2⟩
    · rw [if_neg h1] at hp
      simp at hp

/-- The generator emits slots in strictly increasing order of start time. -/
theorem genSlotsAux_pairwise {dur : Int} {events : List (Int × Int)}
    {close : Int} :
    ∀ (fuel : Nat) (cur : Int),
      (genSlotsAux dur events close fuel cur).Pairwise
        (fun a b => a.1 < b.1) := by
  intro fuel
  induction fuel with
  | zero => intro cur; simp [genSlotsAux]
  | succ n ih =>
    intro cur
    rw [genSlotsAux]
    by_cases h1 : cur < close
    · rw [if_pos h1]
      refine List.pairwise_append.2 ⟨?_, ih (cur + 15), ?_⟩
      · by_cases h2 : (decide (cur + dur ≤ close) &&
            !(events.any fun ev => overlapTest cur (cur + dur) ev.1 ev.2)) = true
        · rw [if_pos h2]; simp
        · rw [if_neg h2]; simp
      · intro a ha b hb
        have hb' := (genSlotsAux_mem n (cur + 15) b hb).1
        by_cases h2 : (decide (cur + dur ≤ close) &&
            !(events.any fun ev => overlapTest cur (cur + dur) ev.1 ev.2)) = true
        · rw [if_pos h2] at ha
          rcases List.mem_singleton.1 ha with rfl
          simp only
          omega
        · rw [if_neg h2] at ha
          simp at ha
    · rw [if_neg h1]
      simp

/-- C4 (amended): for a day whose stored hours parse to a numeric window, every
slot `getAvailableSlots` emits satisfies `open ≤ S.start` and
`S.start + D ≤ close`, the slots are in ascending order of start time, and
every slot passes the overlap test against every EXTERNAL calendar event of
the day — but `getAvailableSlots` never consults internal bookings or the
buffer, so an emitted slot need not satisfy
`checkAvailability(business, S).available = true` (see the counterexample). -/
theorem c4_slot_properties (hoursStr : Option (List Char)) (day : Int)
    (events : List (Int × Int)) (dur : Int) (ot ct : Int)
    (slots : List (Int × Int))
    (hw : lookupWindow hoursStr = .window (some ot) (some ct))
    (hs : getAvailableSlots hoursStr day events dur = .ok slots) :
    (∀ p ∈ slots, day + ot ≤ p.1 ∧ p.1 + dur ≤ day + ct ∧ p.2 = p.1 + dur) ∧
    slots.Pairwise (fun a b => a.1 < b.1) ∧
    (∀ p ∈ slots, ∀ ev ∈ events, overlapTest p.1 p.2 ev.1 ev.2 = false) := by
  unfold getAvailableSlots at hs
  rw [hw] at hs
  have hslots : slots = genSlots (day + ot) (day + ct) dur events := by
    cases hs; rfl
  subst hslots
  unfold genSlots
  refine ⟨?_, genSlotsAux_pairwise _ _, ?_⟩
  · intro p hp
    have := genSlotsAux_mem _ _ p hp
    exact ⟨this.1, this.2.1, this.2.2.1⟩
  · intro p hp
    exact (genSlotsAux_mem _ _ p hp).2.2.2

/-- C4 witness: the slot bounds at a concrete business day with one external
event. -/
theorem c4_witness :
    (∀ p ∈ slotsOf (getAvailableSlots (some "09:00-17:00".data) 0 [(600, 630)] 30),
      (0 : Int) + 540 ≤ p.1 ∧ p.1 + 30 ≤ (0 : Int) + 1020 ∧ p.2 = p.1 + 30) ∧
    (slotsOf (getAvailableSlots (some "09:00-17:00".data) 0 [(600, 630)] 30)).Pairwise
      (fun a b => a.1 < b.1) ∧
    (∀ p ∈ slotsOf (getAvailableSlots (some "09:00-17:00".data) 0 [(600, 630)] 30),
      ∀ ev ∈ [((600 : Int), (630 : Int))],
        overlapTest p.1 p.2 ev.1 ev.2 = false) :=
  c4_slot_properties (some "09:00-17:00".data) 0 [(600, 630)] 30 540 1020
    (slotsOf (getAvailableSlots (some "09:00-17:00".data) 0 [(600, 630)] 30))
    (by decide) (by decide)

/-- C4 counterexample: with no external events but an internal confirmed
booking 09:00-09:30, the generator still emits the slot 09:00-09:30 (it never
reads the internal ledger), and `checkAvailability` on that emitted slot
answers already-booked — refuting the claim that every emitted slot is
available at generation time. -/
theorem c4_cex_internal_ignored :
    (540, 570) ∈ slotsOf (getAvailableSlots (some "09:00-17:00".data) 0 [] 30) ∧
    checkAvailability envStd [mkBooking 1 540 570] 540 570 30 =
      .res ⟨false, some .alreadyBooked, none⟩ := by
  exact ⟨by decide, by decide⟩

/-- The sweep's processing loop, characterized pointwise: a row ends up marked
exactly when it was already marked or some selected booking with its id had a
successful send. (Marking a row's flag is idempotent and id-directed, so no
distinctness assumption is needed here.) -/
theorem sweep_foldl (send : Nat → Bool) :
    ∀ (sel st : List Booking),
      sel.foldl (sweepStep send) st =
        st.map (fun x =>
          if sel.any (fun b => send b.id && x.id == b.id) then
            { x with reminder_sent := true }
          else x) := by
  intro sel
  induction sel with
  | nil =>
    intro st
    simp
  | cons b rest ih =>
    intro st
    have hstep : sweepStep send st b =
        st.map (fun x =>
          if send b.id && x.id == b.id then { x with reminder_sent := true }
          else x) := by
      unfold sweepStep markSent
      by_cases hs : send b.id = true
      · rw [if_pos hs]
        apply List.map_congr_left
        intro x _
        simp [hs]
      · rw [if_neg hs]
        have : send b.id = false := by revert hs; cases send b.id <;> simp
        simp [this]
    show rest.foldl (sweepStep send) (sweepStep send st b) = _
    rw [ih, hstep, List.map_map]
    apply List.map_congr_left
    intro x _
    simp only [Function.comp_apply, List.any_cons]
    by_cases c1 : (send b.id && x.id == b.id) = true <;>
      by_cases c2 : (rest.any fun b' => send b'.id && x.id == b'.id) = true <;>
      simp [c1, c2]

/-- C6: each eligible booking's `reminder_sent` flag flips exactly when its
send succeeds (a send failure leaves it false for the next sweep to retry),
and a second sweep immediately after a fully successful run selects nothing
and performs zero sends. -/
theorem c6_reminder_sweep (send : Nat → Bool) (now : Int) (bs : List Booking)
    (hnd : (bs.map Booking.id).Nodup) :
    (sendDailyReminders send now bs).1 =
      bs.map (fun x =>
        if eligibleReminder (dayStart now + 1440) (dayStart now + 2880) x &&
            send x.id then
          { x with reminder_sent := true }
        else x) ∧
    ((∀ b ∈ bs.filter
        (eligibleReminder (dayStart now + 1440) (dayStart now + 2880)),
        send b.id = true) →
      (bs.filter (eligibleReminder (dayStart now + 1440) (dayStart now + 2880))
        ).length = (sendDailyReminders send now bs).2 ∧
      (sendDailyReminders send now (sendDailyReminders send now bs).1).2 = 0) := by
  set lo := dayStart now + 1440 with hlo
  set hi := dayStart now + 2880 with hhi
  have hchar : (sendDailyReminders send now bs).1 =
      bs.map (fun x =>
        if eligibleReminder lo hi x && send x.id then
          { x with reminder_sent := true }
        else x) := by
    show (bs.filter (eligibleReminder lo hi)).foldl (sweepStep send) bs = _
    rw [sweep_foldl]
    apply List.map_congr_left
    intro x hx
    have hiff : ((bs.filter (eligibleReminder lo hi)).any
        (fun b => send b.id && x.id == b.id)) =
        (eligibleReminder lo hi x && send x.id) := by
      by_cases hcase : (eligibleReminder lo hi x && send x.id) = true
      · rw [hcase]
        refine List.any_eq_true.2 ⟨x, ?_, ?_⟩
        · exact List.mem_filter.2 ⟨hx, (Bool.and_eq_true .. ▸ hcase).1⟩
        · simp [(Bool.and_eq_true .. ▸ hcase).2]
      · have hfalse : (eligibleReminder lo hi x && send x.id) = false := by
          revert hcase; cases (eligibleReminder lo hi x && send x.id) <;> simp
        rw [hfalse]
        refine List.any_eq_false.2 ?_
        intro b hb
        intro hcontra
        rcases Bool.and_eq_true .. ▸ hcontra with ⟨hsend, hid⟩
        have hbmem : b ∈ bs := List.mem_of_mem_filter hb
        have hbx : x = b :=
          List.inj_on_of_nodup_map hnd hx hbmem (by simpa using hid)
        apply hcase
        rw [hbx]
        simp [hsend, List.mem_filter.1 hb]
    rw [hiff]
  refine ⟨hchar, ?_⟩
  intro hall
  constructor
  · rfl
  · show ((sendDailyReminders send now bs).1.filter
      (eligibleReminder lo hi)).length = 0
    rw [hchar]
    have hempty : ((bs.map (fun x =>
        if eligibleReminder lo hi x && send x.id then
          { x with reminder_sent := true }
        else x)).filter (eligibleReminder lo hi)) = [] := by
      rw [List.filter_eq_nil_iff]
      intro a ha
      rcases List.mem_map.1 ha with ⟨x, hx, rfl⟩
      by_cases hel : eligibleReminder lo hi x = true
      · have hsend : send x.id = true := hall x (List.mem_filter.2 ⟨hx, hel⟩)
        rw [hel, hsend]
        simp [eligibleReminder]
      · have hel' : eligibleReminder lo hi x = false := by
          revert hel; cases eligibleReminder lo hi x <;> simp
        rw [hel']
        simp [hel']
    rw [hempty]
    rfl

/-- Availability of a candidate implies no day-scoped confirmed booking passes
the conflict test against it. -/
theorem no_overlap_of_available {env : Env} {ledger : List Booking}
    {s e dur : Int} {r : AvailResult}
    (h : checkAvailability env ledger s e dur = .res r)
    (ha : r.available = true) :
    ∀ b ∈ ledger, b.status = confirmedStr → dayStart s ≤ b.start_time →
      b.start_time ≤ dayStart s + 1439 →
      overlapTest s e b.start_time b.end_time = false := by
  obtain ⟨o, c, hw, hh, hcal, hany⟩ := avail_true_elim h ha
  intro b hb hst h1 h2
  have hmem : b ∈ dayFilter ledger s := mem_dayFilter.2 ⟨hb, hst, h1, h2⟩
  have hnot := List.any_eq_false.1 hany b hmem
  revert hnot
  cases overlapTest s e b.start_time b.end_time <;> simp

/-- Inversion of a successful commit: the availability check passed, the
committed row is the inserted one, and the new table is the old one plus that
row (with the mirrored event id recorded on it when mirroring succeeded). -/
theorem committed_inv {env : Env} {mirrorOk sendsOk : Bool}
    {ledger : List Booking} {newId eventId : Nat} {s e dur : Int}
    {b : Booking} {l' : List Booking}
    (h : processBookingCommit env mirrorOk sendsOk ledger newId eventId s e dur
      = (.committed b, l')) :
    ∃ r, checkAvailability env ledger s e dur = .res r ∧ r.available = true ∧
      b = mkBooking newId s e ∧
      l' = (if env.hasCalendar && mirrorOk then
        (ledger ++ [mkBooking newId s e]).map (fun x =>
          if x.id == newId then { x with calendar_event_id := some eventId }
          else x)
      else ledger ++ [mkBooking newId s e]) := by
  unfold processBookingCommit at h
  rcases hc : checkAvailability env ledger s e dur with _ | r
  · rw [hc] at h
    exact absurd h (by simp)
  · rw [hc] at h
    dsimp only at h
    refine ⟨r, rfl, ?_⟩
    by_cases ha : r.available = true
    · rw [if_pos ha] at h
      cases sendsOk
      · simp at h
      · rw [if_pos rfl] at h
        rw [Prod.mk.injEq] at h
        obtain ⟨h1, h2⟩ := h
        injection h1 with hb
        exact ⟨ha, hb.symm, h2.symm⟩
    · rw [if_neg ha] at h
      exact absurd h (by simp)

/-- The event-id stamping after a successful mirror touches no field the
conflict logic reads. -/
theorem stamp_preserves (newId eventId : Nat) (x : Booking) :
    ((if x.id == newId then { x with calendar_event_id := some eventId }
      else x) : Booking).status = x.status ∧
    ((if x.id == newId then { x with calendar_event_id := some eventId }
      else x) : Booking).start_time = x.start_time ∧
    ((if x.id == newId then { x with calendar_event_id := some eventId }
      else x) : Booking).end_time = x.end_time := by
  by_cases hx : (x.id == newId) = true
  · rw [if_pos hx]; exact ⟨rfl, rfl, rfl⟩
  · rw [if_neg hx]; exact ⟨rfl, rfl, rfl⟩

/-- The committed table always contains a confirmed row carrying the new
interval. -/
theorem committed_row_mem {env : Env} {mirrorOk sendsOk : Bool}
    {ledger : List Booking} {newId eventId : Nat} {s e dur : Int}
    {b : Booking} {l' : List Booking}
    (h : processBookingCommit env mirrorOk sendsOk ledger newId eventId s e dur
      = (.committed b, l')) :
    ∃ x ∈ l', x.status = confirmedStr ∧ x.start_time = s ∧ x.end_time = e := by
  obtain ⟨r, hc, ha, hb, hl⟩ := committed_inv h
  have hmem0 : mkBooking newId s e ∈ ledger ++ [mkBooking newId s e] := by
    simp
  by_cases hm : (env.hasCalendar && mirrorOk) = true
  · rw [hm, if_pos rfl] at hl
    refine ⟨(if (mkBooking newId s e).id == newId then
      { mkBooking newId s e with calendar_event_id := some eventId }
      else mkBooking newId s e), ?_, ?_⟩
    · rw [hl]
      exact List.mem_map.2 ⟨mkBooking newId s e, hmem0, rfl⟩
    · obtain ⟨hst, hs1, hs2⟩ := stamp_preserves newId eventId (mkBooking newId s e)
      exact ⟨hst, hs1, hs2⟩
  · have hm' : (env.hasCalendar && mirrorOk) = false := by
      revert hm; cases (env.hasCalendar && mirrorOk) <;> simp
    rw [hm', if_neg (by simp)] at hl
    exact ⟨mkBooking newId s e, hl ▸ hmem0, rfl, rfl, rfl⟩

/-- C1 (amended): committing a booking and immediately re-checking the
identical interval yields `available=false` with the already-booked reason;
and a successful commit preserves the no-overlap invariant PROVIDED every
existing confirmed booking is intra-day and the new interval lies within its
start's calendar day. Without the intra-day proviso the day-scoped conflict
fetch can miss a midnight-spanning confirmed booking and break the invariant
(see the counterexample). -/
theorem c1_commit_round_trip_and_preservation :
    (∀ (env : Env) (mirrorOk sendsOk : Bool) (ledger : List Booking)
      (newId eventId : Nat) (s e dur : Int) (b : Booking) (l' : List Booking),
      s < e →
      processBookingCommit env mirrorOk sendsOk ledger newId eventId s e dur =
        (.committed b, l') →
      checkAvailability env l' s e dur =
        .res ⟨false, some .alreadyBooked, none⟩) ∧
    (∀ (env : Env) (mirrorOk sendsOk : Bool) (ledger : List Booking)
      (newId eventId : Nat) (s e dur : Int) (b : Booking) (l' : List Booking),
      s < e → e ≤ dayStart s + 1440 →
      (∀ x ∈ ledger, x.status = confirmedStr → IntraDay x) →
      ConfirmedDisjoint ledger →
      processBookingCommit env mirrorOk sendsOk ledger newId eventId s e dur =
        (.committed b, l') →
      ConfirmedDisjoint l') := by
  constructor
  · intro env mirrorOk sendsOk ledger newId eventId s e dur b l' hse h
    obtain ⟨r, hc, ha, _, _⟩ := committed_inv h
    obtain ⟨o, c, hw, hh, hcal, _⟩ := avail_true_elim hc ha
    obtain ⟨x, hxmem, hxst, hxs, hxe⟩ := committed_row_mem h
    apply check_already_booked_of_gates hw hh hcal
    refine List.any_eq_true.2 ⟨x, ?_, ?_⟩
    · refine List.mem_filter.2 ⟨hxmem, ?_⟩
      have d1 := dayStart_le s
      have d2 := lt_dayStart_add s
      simp only [Bool.and_eq_true, beq_iff_eq, decide_eq_true_eq]
      exact ⟨⟨hxst, by omega⟩, by omega⟩
    · rw [hxs, hxe]
      exact overlapTest_of_overlap hse hse
  · intro env mirrorOk sendsOk ledger newId eventId s e dur b l' hse hed
      hintra hdisj h
    obtain ⟨r, hc, ha, _, hl⟩ := committed_inv h
    have hbase : ConfirmedDisjoint (ledger ++ [mkBooking newId s e]) := by
      unfold ConfirmedDisjoint
      rw [List.pairwise_append]
      refine ⟨hdisj, by simp, ?_⟩
      intro a hamem x hx
      rcases List.mem_singleton.1 hx with rfl
      intro hastat _
      show a.end_time ≤ s ∨ e ≤ a.start_time
      by_cases hday : dayStart s ≤ a.start_time ∧
          a.start_time ≤ dayStart s + 1439
      · have hov := no_overlap_of_available hc ha a hamem hastat hday.1 hday.2
        by_contra hcon
        push_neg at hcon
        have := overlapTest_of_overlap hcon.1 hcon.2
        rw [hov] at this
        cases this
      · have hia : IntraDay a := hintra a hamem hastat
        unfold IntraDay at hia
        push_neg at hday
        unfold dayStart at hia hed hday
        omega
    rw [hl]
    by_cases hm : (env.hasCalendar && mirrorOk) = true
    · rw [if_pos hm]
      unfold ConfirmedDisjoint at hbase ⊢
      rw [List.pairwise_map]
      refine hbase.imp_of_mem ?_
      intro a x _ _ hrel
      obtain ⟨sa, s1, s2⟩ := stamp_preserves newId eventId a
      obtain ⟨sb, t1, t2⟩ := stamp_preserves newId eventId x
      rw [sa, sb, s1, s2, t1, t2]
      exact hrel
    · rw [if_neg hm]
      exact hbase

/-- C1 witness: a commit at the standard business followed by the re-check,
and invariant preservation over a one-booking intra-day table. -/
theorem c1_witness :
    checkAvailability envStd [mkBooking 7 600 630] 600 630 30 =
      .res ⟨false, some .alreadyBooked, none⟩ ∧
    ConfirmedDisjoint [mkBooking 1 700 730, mkBooking 7 600 630] := by
  constructor
  · exact c1_commit_round_trip_and_preservation.1 envStd false true [] 7 0
      600 630 30 (mkBooking 7 600 630) [mkBooking 7 600 630]
      (by decide) (by decide)
  · exact c1_commit_round_trip_and_preservation.2 envStd false true
      [mkBooking 1 700 730] 7 0 600 630 30 (mkBooking 7 600 630)
      [mkBooking 1 700 730, mkBooking 7 600 630]
      (by decide) (by decide) (by decide) (by decide) (by decide)

/-- C1 counterexample: the day-scoped conflict fetch selects bookings by
`start_time` within the candidate's day only, so a confirmed booking spanning
midnight (23:00 day 0 - 01:00 day 1) is invisible to a candidate 00:00-00:30
on day 1: the commit succeeds and the resulting table has two overlapping
confirmed bookings, breaking the invariant the claim says every successful
commit preserves. -/
theorem c1_cex_midnight_overlap :
    ConfirmedDisjoint [mkBooking 1 1380 1500] ∧
    processBookingCommit envNight false true [mkBooking 1 1380 1500] 2 0
      1440 1470 30 =
      (.committed (mkBooking 2 1440 1470),
        [mkBooking 1 1380 1500, mkBooking 2 1440 1470]) ∧
    ¬ ConfirmedDisjoint [mkBooking 1 1380 1500, mkBooking 2 1440 1470] := by
  exact ⟨by decide, by decide, by decide⟩

/-- C6 witness: a concrete sweep over three bookings — one eligible with a
failing send (flag stays false), one eligible with a successful send (flag
flips), one outside the window — followed by the idempotence conclusion. -/
theorem c6_witness :
    (sendDailyReminders (fun i => decide (i ≠ 2)) 100
        [⟨1, 1500, 1530, confirmedStr, false, none⟩,
         ⟨2, 1600, 1630, confirmedStr, false, none⟩,
         ⟨3, 5000, 5030, confirmedStr, false, none⟩]).1 =
      [⟨1, 1500, 1530, confirmedStr, false, none⟩,
       ⟨2, 1600, 1630, confirmedStr, false, none⟩,
       ⟨3, 5000, 5030, confirmedStr, false, none⟩].map (fun x =>
        if eligibleReminder (dayStart 100 + 1440) (dayStart 100 + 2880) x &&
            decide (x.id ≠ 2) then
          { x with reminder_sent := true }
        else x) :=
  (c6_reminder_sweep (fun i => decide (i ≠ 2)) 100
    [⟨1, 1500, 1530, confirmedStr, false, none⟩,
     ⟨2, 1600, 1630, confirmedStr, false, none⟩,
     ⟨3, 5000, 5030, confirmedStr, false, none⟩] (by decide)).1

/-- C7: once the availability check has passed, the booking is persisted as
confirmed and a failing external-calendar mirror (`mirrorOk = false`) neither
rolls it back nor changes the reported outcome — `processBooking` still
reports the booking committed; even a later failure of the confirmation send
leaves the inserted row in place. -/
theorem c7_mirror_decoupled (env : Env) (sendsOk : Bool)
    (ledger : List Booking) (newId eventId : Nat) (s e dur : Int)
    (r : AvailResult) (hc : checkAvailability env ledger s e dur = .res r)
    (ha : r.available = true) :
    processBookingCommit env false true ledger newId eventId s e dur =
      (.committed (mkBooking newId s e), ledger ++ [mkBooking newId s e]) ∧
    (processBookingCommit env false sendsOk ledger newId eventId s e dur).2 =
      ledger ++ [mkBooking newId s e] ∧
    (mkBooking newId s e).status = confirmedStr := by
  unfold processBookingCommit
  rw [hc]
  dsimp only
  rw [if_pos ha, if_pos ha]
  refine ⟨by simp, ?_, rfl⟩
  cases sendsOk <;> simp

/-- C7 witness: a concrete commit whose mirror fails. -/
theorem c7_witness :
    processBookingCommit envStd false true [] 7 0 600 630 30 =
      (.committed (mkBooking 7 600 630), [] ++ [mkBooking 7 600 630]) ∧
    (processBookingCommit envStd false false [] 7 0 600 630 30).2 =
      [] ++ [mkBooking 7 600 630] ∧
    (mkBooking 7 600 630).status = confirmedStr :=
  c7_mirror_decoupled envStd false [] 7 0 600 630 30 ⟨true, none, none⟩
    (by decide) rfl

/-- C9 (amended): the reschedule availability check runs against the full
day-scoped ledger, which includes the booking being rescheduled, so whenever
the new interval overlaps the booking's own current `[start, end)` interval
(and lies on the same calendar day), `rescheduleBooking` fails and leaves the
table untouched. The buffer-zone half of the claim is false: a new interval
that lies inside the booking's buffer-inflated zone without overlapping the
booking itself can be accepted (see the counterexample). -/
theorem c9_reschedule_self_conflict (env : Env) (ledger : List Booking)
    (bid : Nat) (newStart : Int) (b : Booking)
    (hfind : ledger.find? (fun x => x.id == bid) = some b)
    (hst : b.status = confirmedStr)
    (hday : dayStart b.start_time = dayStart newStart)
    (hov1 : newStart < b.end_time)
    (hov2 : b.start_time < newStart + (b.end_time - b.start_time)) :
    rescheduleBooking env ledger bid newStart = (.failed, ledger) := by
  unfold rescheduleBooking
  rw [hfind]
  dsimp only
  rcases hc : checkAvailability env ledger newStart
      (newStart + (b.end_time - b.start_time))
      (b.end_time - b.start_time) with _ | r
  · rfl
  · have hmem : b ∈ ledger := List.mem_of_find?_eq_some hfind
    have hb1 : dayStart newStart ≤ b.start_time := by
      rw [← hday]; exact dayStart_le _
    have hb2 : b.start_time ≤ dayStart newStart + 1439 := by
      have := lt_dayStart_add b.start_time
      omega
    have havail : r.available = false := by
      by_contra hcon
      have ha : r.available = true := by
        revert hcon; cases r.available <;> simp
      have hno := no_overlap_of_available hc ha b hmem hst hb1 hb2
      have hyes := overlapTest_of_overlap hov1 hov2
      rw [hno] at hyes
      cases hyes
    dsimp only
    rw [if_neg (by rw [havail]; exact Bool.false_ne_true)]

/-- C9 witness: rescheduling a 10:00-11:00 booking to 10:30 (overlapping its
own current interval) fails and leaves the table unchanged. -/
theorem c9_witness :
    rescheduleBooking envStd [mkBooking 1 600 660] 1 630 =
      (.failed, [mkBooking 1 600 660]) :=
  c9_reschedule_self_conflict envStd [mkBooking 1 600 660] 1 630
    (mkBooking 1 600 660) (by decide) (by decide) (by decide) (by decide)
    (by decide)

/-- C9 counterexample: booking 10:00-10:15 (duration 15), default buffer 15:
rescheduling it to 10:15 puts the new interval 10:15-10:30 entirely inside the
booking's own buffer-inflated zone 09:45-10:30 — a shift of 15 minutes, less
than duration + buffer = 30 — yet the reschedule SUCCEEDS and mutates the
booking, because the buffer test only asks whether the shifted endpoints fall
strictly inside the old interval. -/
theorem c9_cex_buffer_zone_accepted :
    rescheduleBooking envStd [mkBooking 1 600 615] 1 615 =
      (.rescheduled (mkBooking 1 615 630), [mkBooking 1 615 630]) ∧
    inflOverlap 615 630 15 600 615 = true ∧
    (600 : Int) - 15 ≤ 615 ∧ (630 : Int) ≤ 615 + 15 := by
  exact ⟨by decide, by decide, by decide, by decide⟩

/-- `str.split(sep)` never yields an empty array. -/
theorem splitOnChar_ne_nil (sep : Char) : ∀ l, splitOnChar sep l ≠ [] := by
  intro l
  cases l with
  | nil => simp [splitOnChar]
  | cons c rest =>
    rw [splitOnChar]
    rcases splitOnChar sep rest with _ | ⟨h, t⟩
    · simp
    · by_cases hc : c = sep
      · simp [hc]
      · simp [hc]

/-- Splitting a string that starts with a separator-free prefix followed by
the separator yields the prefix as first component. -/
theorem splitOnChar_head_seg (sep : Char) :
    ∀ pre t : List Char, sep ∉ pre →
      splitOnChar sep (pre ++ sep :: t) = pre :: splitOnChar sep t := by
  intro pre
  induction pre with
  | nil =>
    intro t _
    show splitOnChar sep (sep :: t) = [] :: splitOnChar sep t
    rw [splitOnChar]
    rcases hsp : splitOnChar sep t with _ | ⟨h, t'⟩
    · exact absurd hsp (splitOnChar_ne_nil sep t)
    · simp
  | cons c cs ih =>
    intro t hmem
    have hc : c ≠ sep := fun hcc => hmem (by simp [hcc])
    show splitOnChar sep (c :: (cs ++ sep :: t)) = _
    rw [splitOnChar, ih t (fun hmm => hmem (List.mem_cons_of_mem _ hmm))]
    simp [hc]

/-- The raw past-date guard string built from the relative word `today` is
never a parseable date: `new Date("todayT...")` is always invalid. -/
theorem jsDateParse_today_invalid (t : List Char) :
    jsDateParse ("today".data ++ 'T' :: t) = none := by
  unfold jsDateParse
  rw [splitOnChar_head_seg 'T' "today".data t (by decide)]
  rcases splitOnChar 'T' t with _ | ⟨t1, rest⟩
  · rfl
  · rcases rest with _ | ⟨t2, rest2⟩
    · show jsDateParts "today".data t1 = none
      unfold jsDateParts
      rw [show splitOnChar '-' "today".data = ["today".data] from by decide]
    · rfl

/-- C10: the past-date guard in `validateBookingData` parses the RAW
`${date}T${time}` string before relative-date resolution, and for
`date = 'today'` that string is always an invalid date whose comparison with
`now` is false — so such requests always pass validation; concretely, at
15:00 on 2026-10-11 a request for "today at 10:00" is validated, proceeds to
the availability check and is even committed as a booking in the past, while
the identical request with the explicit date `2026-10-11` is rejected with the
booking-in-the-past message. -/
theorem c10_relative_date_past_guard :
    (∀ t : List Char, jsDateParse ("today".data ++ 'T' :: t) = none) ∧
    (∀ (now : Int) (sv tt : List Char), sv ≠ [] → tt ≠ [] →
      validateBookingData now ⟨some sv, some "today".data, some tt⟩ = .valid) ∧
    validateBookingData nowOct reqToday = .valid ∧
    processBooking envStd true true nowOct "2026-10-11".data "2026-10-12".data
      [("Haircut".data, 30)] [] 7 99 reqToday =
      (.committed (mkBooking 7 tenOct (tenOct + 30)),
        [mkBooking 7 tenOct (tenOct + 30)]) ∧
    tenOct < nowOct ∧
    processBooking envStd true true nowOct "2026-10-11".data "2026-10-12".data
      [("Haircut".data, 30)] [] 7 99 reqExplicit = (.rejectedPast, []) := by
  refine ⟨jsDateParse_today_invalid, ?_, by decide, by decide, by decide,
    by decide⟩
  intro now sv tt hsv htt
  unfold validateBookingData
  dsimp only
  have h1 : sv.isEmpty = false := by
    cases sv
    · exact absurd rfl hsv
    · rfl
  have h2 : tt.isEmpty = false := by
    cases tt
    · exact absurd rfl htt
    · rfl
  rw [if_neg (by simp [falsyStr, h1, h2])]
  simp only [Option.getD_some]
  have heq : jsDateParse (['t', 'o', 'd', 'a', 'y'] ++ 'T' :: tt) = none :=
    jsDateParse_today_invalid tt
  simp only [heq]
  rfl

/-- C10 witness: instances of the two universally quantified conjuncts. -/
theorem c10_witness :
    jsDateParse ("today".data ++ 'T' :: "10:00".data) = none ∧
    validateBookingData 0
      ⟨some "Haircut".data, some "today".data, some "10:00".data⟩ = .valid := by
  constructor
  · exact c10_relative_date_past_guard.1 "10:00".data
  · exact c10_relative_date_past_guard.2.1 0 "Haircut".data "10:00".data
      (by decide) (by decide)

end Rsrv
